import Mathlib

/-!
Shallow embedding of the `build-array` crate (`src/lib.rs`).

The builder `ArrayBuilder<T, N>` wraps an `arrayvec::ArrayVec<T, N>` plus an
`excess : usize` counter.  We model the `ArrayVec` contents as a `List T`
whose length never exceeds `N` (the capacity bound is carried as a hypothesis
where a proof needs it), and `usize` counters as `Nat` (the counts involved
are bounded by the number of pushes, so overflow is not modelled).

Build operations in the source call `self.inner.take().into_inner()` and hit
an `unreachable!` panic branch if `into_inner` fails; we model a build
operation as returning `Option (result × builder)`, where `none` is the
panic branch, so that "the unreachable branch is never taken" is a provable
statement (`≠ none`).
-/

/-- `Error` from `src/lib.rs`: carries the expected capacity `N` and the
actual number of pushes observed (`inner.len() + excess`). -/
structure Error where
  expected : Nat
  actual : Nat
deriving DecidableEq

/-- The `"few"`/`"many"` word chosen by `impl fmt::Display for Error`. -/
def Error.snip (e : Error) : String :=
  if e.actual < e.expected then "few" else "many"

/-- The full rendered `Display` message of an `Error`. -/
def Error.display (e : Error) : String :=
  "too " ++ e.snip ++ " elements for array, needed " ++ toString e.expected
    ++ " but got " ++ toString e.actual

/-- `ArrayBuilder<T, N>`: the `ArrayVec` contents as a list (`inner`) and the
count of pushes made while full (`excess`). -/
structure ArrayBuilder (T : Type) (N : Nat) where
  inner : List T
  excess : Nat
deriving DecidableEq

namespace ArrayBuilder

variable {T : Type} {N : Nat}

/-- `ArrayBuilder::new`: empty contents, zero excess. -/
def new (T : Type) (N : Nat) : ArrayBuilder T N := ⟨[], 0⟩

/-- `ArrayBuilder::push`: `ArrayVec::try_push` succeeds exactly when the
vector is not yet full; on failure the item is dropped and `excess`
increments. -/
def push (b : ArrayBuilder T N) (item : T) : ArrayBuilder T N :=
  if b.inner.length < N then ⟨b.inner ++ [item], b.excess⟩
  else ⟨b.inner, b.excess + 1⟩

/-- `ArrayVec::remaining_capacity`. -/
def remaining_capacity (b : ArrayBuilder T N) : Nat := N - b.inner.length

/-- `ArrayBuilder::pad_with`: push `remaining_capacity` clones of the pad
value (the loop bound is evaluated once, before the first push). -/
def pad_with (b : ArrayBuilder T N) (x : T) : ArrayBuilder T N :=
  ⟨b.inner ++ List.replicate b.remaining_capacity x, b.excess⟩

/-- `ArrayBuilder::error`: `expected = N`, `actual = inner.len() + excess`. -/
def error (b : ArrayBuilder T N) : Error := ⟨N, b.inner.length + b.excess⟩

/-- `ArrayVec::into_inner`: yields the fixed array exactly when the vector is
full. -/
def into_inner (N : Nat) (l : List T) : Option (List T) :=
  if l.length = N then some l else none

/-- `ArrayBuilder::build_pad`.  `self.inner.take()` leaves the builder's
contents empty; the `excess` field is untouched (it is `0` on this path). -/
def build_pad (b : ArrayBuilder T N) (item : T) :
    Option (Except Error (List T) × ArrayBuilder T N) :=
  if b.excess > 0 then some (Except.error b.error, b)
  else
    match into_inner N (b.pad_with item).inner with
    | some it => some (Except.ok it, ⟨[], b.excess⟩)
    | none => none

/-- `ArrayBuilder::build_pad_truncate`: pad, set `excess` to `0`, take. -/
def build_pad_truncate (b : ArrayBuilder T N) (item : T) :
    Option (List T × ArrayBuilder T N) :=
  match into_inner N (b.pad_with item).inner with
  | some it => some (it, ⟨[], 0⟩)
  | none => none

/-- `ArrayBuilder::build_truncate`: succeed when `remaining_capacity == 0`;
note that `excess` is NOT reset on success in the source. -/
def build_truncate (b : ArrayBuilder T N) :
    Option (Except Error (List T) × ArrayBuilder T N) :=
  if b.remaining_capacity = 0 then
    match into_inner N b.inner with
    | some it => some (Except.ok it, ⟨[], b.excess⟩)
    | none => none
  else some (Except.error b.error, b)

/-- `ArrayBuilder::build_exact`: succeed when full and no excess. -/
def build_exact (b : ArrayBuilder T N) :
    Option (Except Error (List T) × ArrayBuilder T N) :=
  if b.remaining_capacity = 0 ∧ b.excess = 0 then
    match into_inner N b.inner with
    | some it => some (Except.ok it, ⟨[], b.excess⟩)
    | none => none
  else some (Except.error b.error, b)

/-- `impl Extend for ArrayBuilder`: push every item of the iterator. -/
def extend (b : ArrayBuilder T N) (l : List T) : ArrayBuilder T N :=
  l.foldl push b

/-- `impl FromIterator for ArrayBuilder`: extend a fresh builder. -/
def from_iter (T : Type) (N : Nat) (l : List T) : ArrayBuilder T N :=
  extend (new T N) l

/-- Evaluating a whole `extend` run: the first `N - |inner|` items are
appended, the rest are counted as excess. -/
theorem extend_eq (b : ArrayBuilder T N) (l : List T) (h : b.inner.length ≤ N) :
    b.extend l =
      ⟨b.inner ++ l.take (N - b.inner.length),
       b.excess + (b.inner.length + l.length - N)⟩ := by
  induction l generalizing b with
  | nil =>
    obtain ⟨inn, ex⟩ := b
    simp only [List.length_nil] at *
    simp only [extend, List.foldl_nil, List.take_nil, List.append_nil, mk.injEq]
    exact ⟨trivial, by omega⟩
  | cons x l ih =>
    have hstep : b.extend (x :: l) = (b.push x).extend l := rfl
    rw [hstep]
    by_cases hlt : b.inner.length < N
    · have hpush : b.push x = ⟨b.inner ++ [x], b.excess⟩ := by
        simp [push, hlt]
      rw [hpush]
      rw [ih ⟨b.inner ++ [x], b.excess⟩ (by simp; omega)]
      have htake : (x :: l).take (N - b.inner.length)
          = x :: l.take (N - (b.inner.length + 1)) := by
        have hco : N - b.inner.length = (N - (b.inner.length + 1)) + 1 := by omega
        rw [hco, List.take_succ_cons]
      simp only [List.length_append, List.length_singleton, List.length_cons,
        List.length_nil, mk.injEq]
      refine ⟨?_, by omega⟩
      rw [htake, List.append_assoc, List.singleton_append]
    · have hpush : b.push x = ⟨b.inner, b.excess + 1⟩ := by
        simp [push, hlt]
      rw [hpush]
      rw [ih ⟨b.inner, b.excess + 1⟩ (by simpa using h)]
      have hn : b.inner.length = N := by omega
      simp only [List.length_cons, mk.injEq]
      constructor
      · have h0 : N - b.inner.length = 0 := by omega
        rw [h0, List.take_zero, List.take_zero]
      · omega

/-- Evaluating `from_iter`: stores the first `N` items, counts the rest. -/
theorem from_iter_eq (T : Type) (N : Nat) (l : List T) :
    from_iter T N l = ⟨l.take N, l.length - N⟩ := by
  rw [from_iter, extend_eq (new T N) l (by simp [new])]
  simp [new]

/-- Padding always fills the contents up to exactly `N` values. -/
theorem pad_with_length (b : ArrayBuilder T N) (x : T) (h : b.inner.length ≤ N) :
    (b.pad_with x).inner.length = N := by
  simp only [pad_with, remaining_capacity, List.length_append,
    List.length_replicate]
  omega

/-- Closed form of `build_pad` under the capacity invariant. -/
theorem build_pad_eq (b : ArrayBuilder T N) (x : T) (h : b.inner.length ≤ N) :
    b.build_pad x =
      if 0 < b.excess then some (Except.error b.error, b)
      else some (Except.ok (b.inner ++ List.replicate (N - b.inner.length) x),
        ⟨[], b.excess⟩) := by
  rw [build_pad]
  by_cases he : 0 < b.excess
  · simp [he]
  · simp only [he, if_false, gt_iff_lt, if_neg he]
    rw [into_inner, if_pos (pad_with_length b x h)]
    rfl

/-- Closed form of `build_pad_truncate` under the capacity invariant. -/
theorem build_pad_truncate_eq (b : ArrayBuilder T N) (x : T)
    (h : b.inner.length ≤ N) :
    b.build_pad_truncate x =
      some (b.inner ++ List.replicate (N - b.inner.length) x, ⟨[], 0⟩) := by
  rw [build_pad_truncate, into_inner, if_pos (pad_with_length b x h)]
  rfl

/-- Closed form of `build_truncate` under the capacity invariant. -/
theorem build_truncate_eq (b : ArrayBuilder T N) (h : b.inner.length ≤ N) :
    b.build_truncate =
      if b.inner.length = N then some (Except.ok b.inner, ⟨[], b.excess⟩)
      else some (Except.error b.error, b) := by
  rw [build_truncate, remaining_capacity]
  by_cases hn : b.inner.length = N
  · rw [if_pos (by omega), into_inner, if_pos hn, if_pos hn]
  · rw [if_neg (by omega), if_neg hn]

/-- Closed form of `build_exact` under the capacity invariant. -/
theorem build_exact_eq (b : ArrayBuilder T N) (h : b.inner.length ≤ N) :
    b.build_exact =
      if b.inner.length = N ∧ b.excess = 0 then
        some (Except.ok b.inner, ⟨[], b.excess⟩)
      else some (Except.error b.error, b) := by
  rw [build_exact, remaining_capacity]
  by_cases hn : b.inner.length = N ∧ b.excess = 0
  · rw [if_pos (by omega), into_inner, if_pos hn.1, if_pos hn]
  · rw [if_neg (by omega), if_neg hn]

/-- Claim C7: `push` never fails; when the builder is not full it writes the
item into slot `occupied_count` (the end of the occupied prefix) and
increments the count, leaving `excess` unchanged; otherwise it discards the
item, leaves the stored contents unchanged, and increments `excess`. -/
theorem push_correct (b : ArrayBuilder T N) (x : T) :
    (b.inner.length < N →
      b.push x = ⟨b.inner ++ [x], b.excess⟩
      ∧ (b.push x).inner[b.inner.length]? = some x
      ∧ (b.push x).inner.length = b.inner.length + 1
      ∧ (b.push x).excess = b.excess)
    ∧ (¬ b.inner.length < N → b.push x = ⟨b.inner, b.excess + 1⟩) := by
  constructor
  · intro hlt
    have hp : b.push x = ⟨b.inner ++ [x], b.excess⟩ := by simp [push, hlt]
    refine ⟨hp, ?_, ?_, ?_⟩ <;> simp [hp]
  · intro hlt
    simp [push, hlt]

/-- Claim C7 witness at `N = 1`, empty builder, item `5`. -/
theorem push_correct_witness :
    ((⟨[], 0⟩ : ArrayBuilder Nat 1).inner.length < 1 →
      (⟨[], 0⟩ : ArrayBuilder Nat 1).push 5 = ⟨[] ++ [5], 0⟩
      ∧ ((⟨[], 0⟩ : ArrayBuilder Nat 1).push 5).inner[([] : List Nat).length]?
          = some 5
      ∧ ((⟨[], 0⟩ : ArrayBuilder Nat 1).push 5).inner.length
          = ([] : List Nat).length + 1
      ∧ ((⟨[], 0⟩ : ArrayBuilder Nat 1).push 5).excess = 0)
    ∧ (¬ (⟨[], 0⟩ : ArrayBuilder Nat 1).inner.length < 1 →
        (⟨[], 0⟩ : ArrayBuilder Nat 1).push 5 = ⟨[], 0 + 1⟩) :=
  push_correct ⟨[], 0⟩ 5

/-- Claim C1: starting from `new` and pushing the items of `l`, `build_exact`
succeeds iff `occupied_count = N` and `excess = 0`, which happens exactly when
`|l| = N`; on success it returns the pushed values in push order, on failure
the error carries `expected = N`, `actual = |l|` and the builder is
unchanged.  Moreover (invariant I3) any builder with positive `excess` can
never succeed in `build_exact`. -/
theorem build_exact_correct (T : Type) (N : Nat) (l : List T)
    (b : ArrayBuilder T N) :
    ((from_iter T N l).build_exact =
      if l.length = N then some (Except.ok l, new T N)
      else some (Except.error ⟨N, l.length⟩, from_iter T N l))
    ∧ (((from_iter T N l).inner.length = N ∧ (from_iter T N l).excess = 0)
        ↔ l.length = N)
    ∧ (0 < b.excess → ∀ r b', b.build_exact ≠ some (Except.ok r, b')) := by
  refine ⟨?_, ?_, ?_⟩
  · rw [from_iter_eq, build_exact_eq _ (by simp [List.length_take])]
    by_cases hN : l.length = N
    · subst hN
      simp [List.take_length, new]
    · have hmin : ¬(((⟨l.take N, l.length - N⟩ : ArrayBuilder T N)).inner.length
          = N ∧ ((⟨l.take N, l.length - N⟩ : ArrayBuilder T N)).excess = 0) := by
        simp only [List.length_take]
        omega
      rw [if_neg hmin, if_neg hN]
      simp only [error, List.length_take, Option.some.injEq, Prod.mk.injEq,
        Except.error.injEq, Error.mk.injEq]
      exact ⟨⟨trivial, by omega⟩, trivial⟩
  · rw [from_iter_eq]
    simp only [List.length_take]
    omega
  · intro he r b' hcon
    rw [build_exact, if_neg (by omega)] at hcon
    simp at hcon

/-- Claim C1 witness at `N = 1`, pushes `[7]`, and an excess-1 builder. -/
theorem build_exact_correct_witness :
    ((from_iter Nat 1 [7]).build_exact =
      if ([7] : List Nat).length = 1 then some (Except.ok [7], new Nat 1)
      else some (Except.error ⟨1, ([7] : List Nat).length⟩, from_iter Nat 1 [7]))
    ∧ (((from_iter Nat 1 [7]).inner.length = 1 ∧ (from_iter Nat 1 [7]).excess = 0)
        ↔ ([7] : List Nat).length = 1)
    ∧ (0 < (⟨[], 1⟩ : ArrayBuilder Nat 1).excess →
        ∀ r b', (⟨[], 1⟩ : ArrayBuilder Nat 1).build_exact
          ≠ some (Except.ok r, b')) :=
  build_exact_correct Nat 1 [7] ⟨[], 1⟩

/-- Claim C2: `build_pad` fails iff `excess > 0`, in which case the error is
`⟨N, occupied + excess⟩` and the builder is unchanged; after `k ≤ N` genuine
pushes it succeeds with the pushed values in push order followed by `N - k`
copies of the pad item. -/
theorem build_pad_correct (b : ArrayBuilder T N) (x : T) (l : List T)
    (hb : b.inner.length ≤ N) (hl : l.length ≤ N) :
    ((∃ e b', b.build_pad x = some (Except.error e, b')) ↔ 0 < b.excess)
    ∧ (0 < b.excess →
        b.build_pad x = some (Except.error ⟨N, b.inner.length + b.excess⟩, b))
    ∧ (from_iter T N l).build_pad x
        = some (Except.ok (l ++ List.replicate (N - l.length) x), new T N) := by
  refine ⟨?_, ?_, ?_⟩
  · constructor
    · intro hex
      obtain ⟨e, b', hE⟩ := hex
      rw [build_pad_eq b x hb] at hE
      by_cases he : 0 < b.excess
      · exact he
      · rw [if_neg he] at hE
        simp at hE
    · intro he
      exact ⟨b.error, b, by rw [build_pad_eq b x hb, if_pos he]⟩
  · intro he
    rw [build_pad_eq b x hb, if_pos he, error]
  · rw [from_iter_eq, build_pad_eq _ _ (by simp [List.length_take])]
    have h0 : l.length - N = 0 := by omega
    have ht : l.take N = l := List.take_of_length_le hl
    simp [h0, ht, new]

/-- Claim C2 witness at `N = 2`: an excess-1 builder and pushes `[7]`. -/
theorem build_pad_correct_witness :
    ((∃ e b', (⟨[5], 1⟩ : ArrayBuilder Nat 2).build_pad 9
        = some (Except.error e, b'))
      ↔ 0 < (⟨[5], 1⟩ : ArrayBuilder Nat 2).excess)
    ∧ (0 < (⟨[5], 1⟩ : ArrayBuilder Nat 2).excess →
        (⟨[5], 1⟩ : ArrayBuilder Nat 2).build_pad 9
          = some (Except.error ⟨2, ([5] : List Nat).length + 1⟩, ⟨[5], 1⟩))
    ∧ (from_iter Nat 2 [7]).build_pad 9
        = some (Except.ok ([7] ++ List.replicate (2 - ([7] : List Nat).length) 9),
            new Nat 2) :=
  build_pad_correct ⟨[5], 1⟩ 9 [7] (by decide) (by decide)

/-- Claim C3: `build_pad_truncate` always succeeds, returning the stored
values (the first `min k N` genuine pushes, in push order) followed by pad
clones, and it resets the builder to the fresh empty state, `excess`
included. -/
theorem build_pad_truncate_correct (b : ArrayBuilder T N) (x : T) (l : List T)
    (hb : b.inner.length ≤ N) :
    b.build_pad_truncate x
        = some (b.inner ++ List.replicate (N - b.inner.length) x, new T N)
    ∧ (from_iter T N l).build_pad_truncate x
        = some (l.take N ++ List.replicate (N - l.length) x, new T N) := by
  constructor
  · rw [build_pad_truncate_eq b x hb]
    rfl
  · rw [from_iter_eq, build_pad_truncate_eq _ _ (by simp [List.length_take])]
    have hc : N - (l.take N).length = N - l.length := by
      simp only [List.length_take]
      omega
    simp only [hc]
    rfl

/-- Claim C3 witness at `N = 2`: an excess-2 builder and pushes `[1,2,3]`. -/
theorem build_pad_truncate_correct_witness :
    (⟨[3], 2⟩ : ArrayBuilder Nat 2).build_pad_truncate 8
        = some ([3] ++ List.replicate (2 - ([3] : List Nat).length) 8, new Nat 2)
    ∧ (from_iter Nat 2 [1, 2, 3]).build_pad_truncate 8
        = some (([1, 2, 3] : List Nat).take 2
            ++ List.replicate (2 - ([1, 2, 3] : List Nat).length) 8, new Nat 2) :=
  build_pad_truncate_correct ⟨[3], 2⟩ 8 [1, 2, 3] (by decide)

/-- Claim C4: `build_truncate` succeeds iff `occupied_count = N` (no padding
is performed), returning the `N` stored values in push order even when excess
pushes occurred; with fewer than `N` real pushes it fails with the error
reporting the shortfall, builder unchanged. -/
theorem build_truncate_correct (b : ArrayBuilder T N) (hb : b.inner.length ≤ N) :
    ((∃ r b', b.build_truncate = some (Except.ok r, b'))
      ↔ b.inner.length = N)
    ∧ (b.inner.length = N →
        b.build_truncate = some (Except.ok b.inner, ⟨[], b.excess⟩))
    ∧ (b.inner.length < N →
        b.build_truncate
          = some (Except.error ⟨N, b.inner.length + b.excess⟩, b)) := by
  refine ⟨?_, ?_, ?_⟩
  · constructor
    · intro hok
      obtain ⟨r, b', hE⟩ := hok
      rw [build_truncate_eq b hb] at hE
      by_cases hn : b.inner.length = N
      · exact hn
      · rw [if_neg hn] at hE
        simp at hE
    · intro hn
      exact ⟨b.inner, ⟨[], b.excess⟩, by rw [build_truncate_eq b hb, if_pos hn]⟩
  · intro hn
    rw [build_truncate_eq b hb, if_pos hn]
  · intro hn
    rw [build_truncate_eq b hb, if_neg (by omega), error]

/-- Claim C4 witness at `N = 1` with one stored item and excess `3`. -/
theorem build_truncate_correct_witness :
    ((∃ r b', (⟨[4], 3⟩ : ArrayBuilder Nat 1).build_truncate
        = some (Except.ok r, b'))
      ↔ (⟨[4], 3⟩ : ArrayBuilder Nat 1).inner.length = 1)
    ∧ ((⟨[4], 3⟩ : ArrayBuilder Nat 1).inner.length = 1 →
        (⟨[4], 3⟩ : ArrayBuilder Nat 1).build_truncate
          = some (Except.ok [4], ⟨[], 3⟩))
    ∧ ((⟨[4], 3⟩ : ArrayBuilder Nat 1).inner.length < 1 →
        (⟨[4], 3⟩ : ArrayBuilder Nat 1).build_truncate
          = some (Except.error ⟨1, ([4] : List Nat).length + 3⟩, ⟨[4], 3⟩)) :=
  build_truncate_correct ⟨[4], 3⟩ (by decide)

/-- Claim C5 counterexample: at `N = 1`, pushing `0` then `1` and calling
`build_truncate` succeeds, yet the resulting builder keeps `excess = 1` — it
is distinguishable from a fresh empty builder (`build_truncate` omits the
`excess` reset that `build_pad_truncate` performs). -/
theorem build_truncate_not_reset :
    ((((new Nat 1).push 0).push 1).build_truncate
        = some (Except.ok [0], (⟨[], 1⟩ : ArrayBuilder Nat 1)))
    ∧ (⟨[], 1⟩ : ArrayBuilder Nat 1) ≠ new Nat 1
    ∧ (⟨[], 1⟩ : ArrayBuilder Nat 1).excess ≠ 0 := by
  refine ⟨rfl, ?_, by decide⟩
  intro hc
  rw [new] at hc
  exact absurd (congrArg ArrayBuilder.excess hc) (by decide)

/-- Claim C6: every failing build returns (as a value — the panic branch is
never taken) an error with `expected = N` and
`actual = occupied_count + excess_count`, and the `Display` word is `"few"`
exactly when `actual < expected` and `"many"` otherwise. -/
theorem build_error_contents (b : ArrayBuilder T N) (x : T)
    (hb : b.inner.length ≤ N) :
    (b.build_exact ≠ none ∧ b.build_pad x ≠ none ∧ b.build_truncate ≠ none)
    ∧ (∀ e b', b.build_exact = some (Except.error e, b')
        → e.expected = N ∧ e.actual = b.inner.length + b.excess)
    ∧ (∀ e b', b.build_pad x = some (Except.error e, b')
        → e.expected = N ∧ e.actual = b.inner.length + b.excess)
    ∧ (∀ e b', b.build_truncate = some (Except.error e, b')
        → e.expected = N ∧ e.actual = b.inner.length + b.excess)
    ∧ (∀ e : Error, (e.snip = "few" ↔ e.actual < e.expected)
        ∧ (e.snip = "many" ↔ ¬ e.actual < e.expected)) := by
  refine ⟨⟨?_, ?_, ?_⟩, ?_, ?_, ?_, ?_⟩
  · rw [build_exact_eq b hb]
    by_cases hc : b.inner.length = N ∧ b.excess = 0 <;> simp [hc]
  · rw [build_pad_eq b x hb]
    by_cases hc : 0 < b.excess <;> simp [hc]
  · rw [build_truncate_eq b hb]
    by_cases hc : b.inner.length = N <;> simp [hc]
  · intro e b' hE
    rw [build_exact_eq b hb] at hE
    by_cases hc : b.inner.length = N ∧ b.excess = 0
    · rw [if_pos hc] at hE
      simp at hE
    · rw [if_neg hc] at hE
      simp only [Option.some.injEq, Prod.mk.injEq, Except.error.injEq] at hE
      rw [← hE.1]
      exact ⟨rfl, rfl⟩
  · intro e b' hE
    rw [build_pad_eq b x hb] at hE
    by_cases hc : 0 < b.excess
    · rw [if_pos hc] at hE
      simp only [Option.some.injEq, Prod.mk.injEq, Except.error.injEq] at hE
      rw [← hE.1]
      exact ⟨rfl, rfl⟩
    · rw [if_neg hc] at hE
      simp at hE
  · intro e b' hE
    rw [build_truncate_eq b hb] at hE
    by_cases hc : b.inner.length = N
    · rw [if_pos hc] at hE
      simp at hE
    · rw [if_neg hc] at hE
      simp only [Option.some.injEq, Prod.mk.injEq, Except.error.injEq] at hE
      rw [← hE.1]
      exact ⟨rfl, rfl⟩
  · intro e
    constructor
    · constructor
      · intro hs
        by_contra hc
        rw [Error.snip, if_neg hc] at hs
        exact absurd hs (by decide)
      · intro hc
        rw [Error.snip, if_pos hc]
    · constructor
      · intro hs hc
        rw [Error.snip, if_pos hc] at hs
        exact absurd hs (by decide)
      · intro hc
        rw [Error.snip, if_neg hc]

/-- Claim C6 witness at `N = 2` with one stored item and no excess. -/
theorem build_error_contents_witness :
    ((⟨[6], 0⟩ : ArrayBuilder Nat 2).build_exact ≠ none
      ∧ (⟨[6], 0⟩ : ArrayBuilder Nat 2).build_pad 9 ≠ none
      ∧ (⟨[6], 0⟩ : ArrayBuilder Nat 2).build_truncate ≠ none)
    ∧ (∀ e b', (⟨[6], 0⟩ : ArrayBuilder Nat 2).build_exact
          = some (Except.error e, b')
        → e.expected = 2 ∧ e.actual = ([6] : List Nat).length + 0)
    ∧ (∀ e b', (⟨[6], 0⟩ : ArrayBuilder Nat 2).build_pad 9
          = some (Except.error e, b')
        → e.expected = 2 ∧ e.actual = ([6] : List Nat).length + 0)
    ∧ (∀ e b', (⟨[6], 0⟩ : ArrayBuilder Nat 2).build_truncate
          = some (Except.error e, b')
        → e.expected = 2 ∧ e.actual = ([6] : List Nat).length + 0)
    ∧ (∀ e : Error, (e.snip = "few" ↔ e.actual < e.expected)
        ∧ (e.snip = "many" ↔ ¬ e.actual < e.expected)) :=
  build_error_contents ⟨[6], 0⟩ 9 (by decide)

/-- Claim C8: a failing build (`build_exact`, `build_pad`, `build_truncate`)
returns the builder exactly as it was, so the identical call repeated yields
the identical outcome. -/
theorem build_failure_frame (b : ArrayBuilder T N) (x : T)
    (hb : b.inner.length ≤ N) :
    (∀ e b', b.build_exact = some (Except.error e, b')
        → b' = b ∧ b'.build_exact = b.build_exact)
    ∧ (∀ e b', b.build_pad x = some (Except.error e, b')
        → b' = b ∧ b'.build_pad x = b.build_pad x)
    ∧ (∀ e b', b.build_truncate = some (Except.error e, b')
        → b' = b ∧ b'.build_truncate = b.build_truncate) := by
  refine ⟨?_, ?_, ?_⟩
  · intro e b' hE
    rw [build_exact_eq b hb] at hE
    by_cases hc : b.inner.length = N ∧ b.excess = 0
    · rw [if_pos hc] at hE
      simp at hE
    · rw [if_neg hc] at hE
      simp only [Option.some.injEq, Prod.mk.injEq] at hE
      exact ⟨hE.2.symm, by rw [hE.2]⟩
  · intro e b' hE
    rw [build_pad_eq b x hb] at hE
    by_cases hc : 0 < b.excess
    · rw [if_pos hc] at hE
      simp only [Option.some.injEq, Prod.mk.injEq] at hE
      exact ⟨hE.2.symm, by rw [hE.2]⟩
    · rw [if_neg hc] at hE
      simp at hE
  · intro e b' hE
    rw [build_truncate_eq b hb] at hE
    by_cases hc : b.inner.length = N
    · rw [if_pos hc] at hE
      simp at hE
    · rw [if_neg hc] at hE
      simp only [Option.some.injEq, Prod.mk.injEq] at hE
      exact ⟨hE.2.symm, by rw [hE.2]⟩

/-- Claim C8 witness at `N = 2` with one stored item and no excess (all three
builds fail there except none — `build_exact` and `build_truncate` fail). -/
theorem build_failure_frame_witness :
    (∀ e b', (⟨[6], 0⟩ : ArrayBuilder Nat 2).build_exact
          = some (Except.error e, b')
        → b' = ⟨[6], 0⟩
          ∧ b'.build_exact = (⟨[6], 0⟩ : ArrayBuilder Nat 2).build_exact)
    ∧ (∀ e b', (⟨[6], 0⟩ : ArrayBuilder Nat 2).build_pad 9
          = some (Except.error e, b')
        → b' = ⟨[6], 0⟩
          ∧ b'.build_pad 9 = (⟨[6], 0⟩ : ArrayBuilder Nat 2).build_pad 9)
    ∧ (∀ e b', (⟨[6], 0⟩ : ArrayBuilder Nat 2).build_truncate
          = some (Except.error e, b')
        → b' = ⟨[6], 0⟩
          ∧ b'.build_truncate = (⟨[6], 0⟩ : ArrayBuilder Nat 2).build_truncate) :=
  build_failure_frame ⟨[6], 0⟩ 9 (by decide)

/-- Claim C9: padding fills exactly the remaining capacity, so the contents
hold exactly `N` values afterwards and the conversion into the fixed array
succeeds — the `unreachable!` branch (modelled as `none`) is never taken. -/
theorem pad_safety (b : ArrayBuilder T N) (x : T) (hb : b.inner.length ≤ N) :
    (b.pad_with x).inner.length = N
    ∧ (b.excess = 0 →
        ∃ r b', b.build_pad x = some (Except.ok r, b') ∧ r.length = N)
    ∧ (∃ r b', b.build_pad_truncate x = some (r, b') ∧ r.length = N)
    ∧ b.build_pad x ≠ none ∧ b.build_pad_truncate x ≠ none := by
  refine ⟨pad_with_length b x hb, ?_, ?_, ?_, ?_⟩
  · intro he
    refine ⟨b.inner ++ List.replicate (N - b.inner.length) x, ⟨[], b.excess⟩,
      ?_, ?_⟩
    · rw [build_pad_eq b x hb, if_neg (by omega)]
    · simp only [List.length_append, List.length_replicate]
      omega
  · refine ⟨b.inner ++ List.replicate (N - b.inner.length) x, ⟨[], 0⟩, ?_, ?_⟩
    · rw [build_pad_truncate_eq b x hb]
    · simp only [List.length_append, List.length_replicate]
      omega
  · rw [build_pad_eq b x hb]
    by_cases hc : 0 < b.excess <;> simp [hc]
  · rw [build_pad_truncate_eq b x hb]
    simp

/-- Claim C9 witness at `N = 1` on the fresh empty builder. -/
theorem pad_safety_witness :
    ((⟨[], 0⟩ : ArrayBuilder Nat 1).pad_with 4).inner.length = 1
    ∧ ((⟨[], 0⟩ : ArrayBuilder Nat 1).excess = 0 →
        ∃ r b', (⟨[], 0⟩ : ArrayBuilder Nat 1).build_pad 4
          = some (Except.ok r, b') ∧ r.length = 1)
    ∧ (∃ r b', (⟨[], 0⟩ : ArrayBuilder Nat 1).build_pad_truncate 4
        = some (r, b') ∧ r.length = 1)
    ∧ (⟨[], 0⟩ : ArrayBuilder Nat 1).build_pad 4 ≠ none
    ∧ (⟨[], 0⟩ : ArrayBuilder Nat 1).build_pad_truncate 4 ≠ none :=
  pad_safety ⟨[], 0⟩ 4 (by decide)

/-- Claim C10 counterexample: the state `⟨[], 1⟩` (excess positive, occupied
count `0 ≠ 2`) is reached at `N = 2` by three pushes followed by a successful
`build_truncate`; pushing once more and calling `build_exact` then yields an
error whose `actual` EQUALS `expected` (both `2`), rendered with the word
`"many"` although only one genuine item is present. -/
theorem excess_invariant_violated :
    ((((((new Nat 2).push 10).push 20).push 30).build_truncate
        = some (Except.ok [10, 20], (⟨[], 1⟩ : ArrayBuilder Nat 2))))
    ∧ 0 < (⟨[], 1⟩ : ArrayBuilder Nat 2).excess
    ∧ (⟨[], 1⟩ : ArrayBuilder Nat 2).inner.length ≠ 2
    ∧ (((⟨[], 1⟩ : ArrayBuilder Nat 2).push 40).build_exact
        = some (Except.error ⟨2, 2⟩, (⟨[40], 1⟩ : ArrayBuilder Nat 2)))
    ∧ (⟨2, 2⟩ : Error).actual = (⟨2, 2⟩ : Error).expected
    ∧ (⟨2, 2⟩ : Error).snip = "many" :=
  ⟨rfl, by decide, by decide, rfl, rfl, rfl⟩

end ArrayBuilder
